import Mathlib

/-!
Shallow embedding of the core of the YouTube-Videos-Fetcher repository:
the credential pool with quota rotation (`services/youtube_service.py`),
the background polling loop (`services/background_service.py`) and the
video create/update reconciliation (`services/video_service.py`).
Time is modelled in whole seconds as `Nat`.
-/

namespace YTFetch

abbrev Key := String

/-- State of `YouTubeAPIClient`: the ordered key list, the rotation cursor,
the `quota_reset_time` dict (association list) and the `quota_exhausted`
set (duplicate-free list). -/
structure YouTubeAPIClient where
  api_keys : List Key
  current_key_index : Nat
  quota_reset_time : List (Key × Nat)
  quota_exhausted : List Key
deriving DecidableEq, Repr

/-- The fixed cooldown of `_mark_key_exhausted`: `timedelta(hours=24)`. -/
def cooldown_seconds : Nat := 24 * 60 * 60

/-- The per-key keep condition of the sweep at the top of
`_get_next_available_key`: a key stays exhausted when it has no entry in
`quota_reset_time` or its reset time is still in the future
(Python removes the key when `key in quota_reset_time and now >= reset`). -/
def quota_active (reset : List (Key × Nat)) (now : Nat) (k : Key) : Bool :=
  match reset.lookup k with
  | some t => decide (now < t)
  | none => true

/-- The sweep loop of `_get_next_available_key`: for every key of
`quota_exhausted` whose reset time has passed, remove it from
`quota_exhausted` and delete its `quota_reset_time` entry. -/
def sweep_exhausted (now : Nat) (c : YouTubeAPIClient) : YouTubeAPIClient :=
  { c with
    quota_exhausted :=
      c.quota_exhausted.filter (quota_active c.quota_reset_time now),
    quota_reset_time :=
      c.quota_reset_time.filter (fun p =>
        !(c.quota_exhausted.contains p.1 && decide (p.2 ≤ now))) }

/-- The scan loop of `_get_next_available_key`: `for i in range(len(api_keys))`
try index `(current_key_index + i) % len(api_keys)` and return the first
index whose key is not in `quota_exhausted`, together with that key. -/
def first_available (keys exh : List Key) (cursor : Nat) : Option (Nat × Key) :=
  (List.range keys.length).findSome? (fun i =>
    let idx := (cursor + i) % keys.length
    match keys.get? idx with
    | some k => if exh.contains k then none else some (idx, k)
    | none => none)

/-- `_get_next_available_key`: sweep expired exhaustions, then scan forward
from the cursor; on success set `current_key_index` to the returned index. -/
def get_next_available_key (now : Nat) (c : YouTubeAPIClient) :
    YouTubeAPIClient × Option Key :=
  let c1 := sweep_exhausted now c
  match first_available c1.api_keys c1.quota_exhausted c1.current_key_index with
  | some (idx, k) => ({ c1 with current_key_index := idx }, some k)
  | none => (c1, none)

/-- Python `set.add`: append the key only when it is not already a member. -/
def insert_key (l : List Key) (k : Key) : List Key :=
  if l.contains k then l else l ++ [k]

/-- Python dict assignment `m[k] = t` on the association list. -/
def set_reset_time (m : List (Key × Nat)) (k : Key) (t : Nat) :
    List (Key × Nat) :=
  if m.any (fun p => p.1 == k) then
    m.map (fun p => if p.1 == k then (k, t) else p)
  else m ++ [(k, t)]

/-- `_mark_key_exhausted`: add the key to `quota_exhausted` and set its
`quota_reset_time` entry to now plus 24 hours. -/
def mark_key_exhausted (now : Nat) (k : Key) (c : YouTubeAPIClient) :
    YouTubeAPIClient :=
  { c with
    quota_exhausted := insert_key c.quota_exhausted k,
    quota_reset_time := set_reset_time c.quota_reset_time k
      (now + cooldown_seconds) }

/-- Outcome of one provider round trip with a given key: success with a
list of parsed videos, a 403-quota `HttpError`, or any other error. -/
inductive FetchOutcome where
  | ok (videos : List Nat)
  | quota
  | err
deriving DecidableEq, Repr

/-- Result of `search_videos`: the video list, the
`All API keys have exhausted their quota` exception, a re-raised non-quota
error, or recursion fuel ran out (never reached, see the termination
theorem). -/
inductive SearchResult where
  | ok (videos : List Nat)
  | allExhausted
  | providerError
  | noFuel
deriving DecidableEq, Repr

/-- `search_videos`: obtain a key (raising when none is available), run the
fetch with it; on a quota error mark the key exhausted and retry the whole
call recursively; re-raise any other error. The external round trip is
abstracted as `fetch`; `fuel` bounds the recursion depth. -/
def search_videos (fetch : Key → FetchOutcome) (now : Nat) :
    Nat → YouTubeAPIClient → YouTubeAPIClient × SearchResult
  | 0, c => (c, SearchResult.noFuel)
  | fuel + 1, c =>
    match get_next_available_key now c with
    | (c1, none) => (c1, SearchResult.allExhausted)
    | (c1, some k) =>
      match fetch k with
      | FetchOutcome.ok vs => (c1, SearchResult.ok vs)
      | FetchOutcome.err => (c1, SearchResult.providerError)
      | FetchOutcome.quota =>
        search_videos fetch now fuel (mark_key_exhausted now k c1)

/-- Number of keys of the pool that are available once the sweep at `now`
has run: the measure that each quota retry strictly decreases. -/
def avail_count (now : Nat) (c : YouTubeAPIClient) : Nat :=
  (c.api_keys.filter (fun x =>
    !((sweep_exhausted now c).quota_exhausted.contains x))).length

/-- One entry of `keys_status` in `get_quota_status`. -/
structure KeyStatus where
  index : Nat
  key_suffix : String
  is_exhausted : Bool
  reset_time : Option Nat
deriving DecidableEq, Repr

/-- The dict returned by `get_quota_status`. -/
structure QuotaStatus where
  total_keys : Nat
  available_keys : Nat
  exhausted_keys : Nat
  current_key_index : Nat
  keys_status : List KeyStatus
deriving DecidableEq, Repr

/-- `get_quota_status`: a read-only report built from the current state;
the client state is returned unchanged (the method performs no writes and
no sweep). -/
def get_quota_status (c : YouTubeAPIClient) : YouTubeAPIClient × QuotaStatus :=
  (c,
   { total_keys := c.api_keys.length,
     available_keys := c.api_keys.length - c.quota_exhausted.length,
     exhausted_keys := c.quota_exhausted.length,
     current_key_index := c.current_key_index,
     keys_status := c.api_keys.enum.map (fun p =>
       { index := p.1,
         key_suffix := p.2.takeRight 4,
         is_exhausted := c.quota_exhausted.contains p.2,
         reset_time := c.quota_reset_time.lookup p.2 }) })

/-- Invariant claimed for the pool: every exhausted key has a reset entry. -/
def pool_inv (c : YouTubeAPIClient) : Prop :=
  ∀ k ∈ c.quota_exhausted, (c.quota_reset_time.lookup k).isSome = true

/-- Counters of `BackgroundTaskService` touched by the loop body. -/
structure LoopCounters where
  fetch_count : Nat
  error_count : Nat
  last_fetch_time : Option Nat
deriving DecidableEq, Repr

/-- Outcome of one `_fetch_and_store_videos` awaited inside the loop body:
it returns normally, raises a non-cancellation exception, or the iteration
is cancelled. -/
inductive TickOutcome where
  | success (now : Nat)
  | failure
  | cancelled
deriving DecidableEq, Repr

/-- Effect of one iteration of `_fetch_videos_loop` on the counters, the
sleep it performs before the next iteration, and whether the loop goes on. -/
structure IterEffect where
  state : LoopCounters
  sleep : Option Nat
  continue_loop : Bool
deriving DecidableEq, Repr

/-- One iteration of the `while self.is_running` body of
`_fetch_videos_loop`: on success increment `fetch_count`, set
`last_fetch_time` and sleep the configured interval; on `CancelledError`
break out; on any other exception increment `error_count` and sleep
`min(fetch_interval * 2, 60)`. -/
def fetch_videos_loop_iter (interval : Nat) (st : LoopCounters) :
    TickOutcome → IterEffect
  | TickOutcome.success now =>
    { state :=
        { st with
          fetch_count := st.fetch_count + 1,
          last_fetch_time := some now },
      sleep := some interval,
      continue_loop := true }
  | TickOutcome.cancelled =>
    { state := st, sleep := none, continue_loop := false }
  | TickOutcome.failure =>
    { state := { st with error_count := st.error_count + 1 },
      sleep := some (min (interval * 2) 60), continue_loop := true }

/-- The primitive steps `stop_background_fetching` performs, in order. -/
inductive StopStep where
  | warnNotRunning
  | setRunningFalse
  | cancelTask
  | awaitTask
  | logStopped
deriving BEq, DecidableEq, Repr

/-- Trace of `stop_background_fetching`: when not running, warn and return;
otherwise set `is_running = False`, then, when a task exists, cancel it and
await it (swallowing `CancelledError`), and finally log. -/
def stop_background_fetching (is_running has_task : Bool) : List StopStep :=
  if is_running then
    [StopStep.setRunningFalse] ++
      (if has_task then [StopStep.cancelTask, StopStep.awaitTask] else []) ++
      [StopStep.logStopped]
  else
    [StopStep.warnNotRunning]

/-- The dict returned by `force_fetch`; the failure branch of the source
builds it without a `duration` entry, hence the `Option`. -/
structure ForceFetchResult where
  success : Bool
  message : String
  duration : Option Int
  timestamp : Nat
deriving DecidableEq, Repr

/-- The poller flag `force_fetch` could have touched but does not. -/
structure PollerFlags where
  is_running : Bool
deriving DecidableEq, Repr

/-- `force_fetch`: run one cycle (abstracted as its `Except` outcome with
start time `t0` and end time `t1`); on success return a success record with
the duration in seconds; on any exception capture it into the message and
return a failure record (no exception propagates, no `duration` entry). -/
def force_fetch (flags : PollerFlags) (cycle : Except String Unit)
    (t0 t1 : Nat) : PollerFlags × ForceFetchResult :=
  match cycle with
  | Except.ok _ =>
    (flags,
     { success := true,
       message := "Manual fetch completed successfully",
       duration := some ((t1 : Int) - (t0 : Int)),
       timestamp := t1 })
  | Except.error e =>
    (flags,
     { success := false,
       message := "Manual fetch failed: " ++ e,
       duration := none,
       timestamp := t1 })

/-- A stored video document: the fetched descriptive fields (abstracted as
`α`; they never include `created_at`) plus the two server-side stamps. -/
structure StoredVideo (α : Type) where
  fields : α
  created_at : Nat
  updated_at : Nat
deriving DecidableEq, Repr

/-- `VideoService.create_video`: stamp both `created_at` and `updated_at`
with the current time and insert. -/
def create_video {α : Type} (now : Nat) (d : α) : StoredVideo α :=
  { fields := d, created_at := now, updated_at := now }

/-- `VideoService.update_video`: `$set` the fetched fields plus a fresh
`updated_at`; `created_at` is not part of the update document. -/
def update_video {α : Type} (now : Nat) (d : α) (r : StoredVideo α) :
    StoredVideo α :=
  { r with fields := d, updated_at := now }

/-- The videos collection, keyed by the natural key `video_id`. -/
abbrev VideoDB (α : Type) := List (String × StoredVideo α)

/-- Concrete two-credential pool used as a test input. -/
def clientAB : YouTubeAPIClient :=
  { api_keys := ["keyA", "keyB"], current_key_index := 0,
    quota_reset_time := [], quota_exhausted := [] }

/-- Concrete one-credential pool whose credential is exhausted with an
already-passed reset time, used as a test input. -/
def clientExpired : YouTubeAPIClient :=
  { api_keys := ["keyA"], current_key_index := 0,
    quota_reset_time := [("keyA", 5)], quota_exhausted := ["keyA"] }

/-- Concrete two-credential pool whose second credential is exhausted with
an already-passed reset time, used as a test input. -/
def clientStale : YouTubeAPIClient :=
  { api_keys := ["aaaa", "bbbb"], current_key_index := 0,
    quota_reset_time := [("bbbb", 5)], quota_exhausted := ["bbbb"] }

/-- The per-record reconciliation of `_fetch_and_store_videos`: look up the
video by id; update it when present, create it otherwise. -/
def reconcile_video {α : Type} (now : Nat) (db : VideoDB α) (vid : String)
    (d : α) : VideoDB α :=
  match db.lookup vid with
  | some _ =>
    db.map (fun p => if p.1 == vid then (vid, update_video now d p.2) else p)
  | none => db ++ [(vid, create_video now d)]

/-- Concrete provider behaviour used as a test input: quota exhaustion on
the first credential and a one-video success on any other. -/
def fetchWitness : Key → FetchOutcome :=
  fun k => if k == "keyA" then FetchOutcome.quota else FetchOutcome.ok [7]

/-! ## Helper lemmas about the association-list and set primitives -/

theorem lookup_filter_keep (p : Key × Nat → Bool) :
    ∀ (m : List (Key × Nat)) (x : Key) (t : Nat),
      m.lookup x = some t → p (x, t) = true → (m.filter p).lookup x = some t := by
  intro m
  induction m with
  | nil => intro x t hl _; simp [List.lookup] at hl
  | cons a m ih =>
    intro x t hl hp
    obtain ⟨k0, t0⟩ := a
    rw [List.filter_cons]
    cases hbeq : (x == k0) with
    | false =>
      simp only [List.lookup, hbeq] at hl
      by_cases hpa : p (k0, t0) = true
      · rw [if_pos hpa]
        simp only [List.lookup, hbeq]
        exact ih x t hl hp
      · rw [if_neg hpa]
        exact ih x t hl hp
    | true =>
      have hx : x = k0 := by simpa using hbeq
      subst hx
      simp only [List.lookup, hbeq] at hl
      obtain rfl : t0 = t := by simpa using hl
      rw [if_pos hp]
      simp [List.lookup]

theorem lookup_filter_none (p : Key × Nat → Bool) :
    ∀ (m : List (Key × Nat)) (x : Key),
      m.lookup x = none → (m.filter p).lookup x = none := by
  intro m
  induction m with
  | nil => intro x _; simp
  | cons a m ih =>
    intro x hl
    obtain ⟨k0, t0⟩ := a
    rw [List.filter_cons]
    cases hbeq : (x == k0) with
    | false =>
      simp only [List.lookup, hbeq] at hl
      by_cases hpa : p (k0, t0) = true
      · rw [if_pos hpa]
        simp only [List.lookup, hbeq]
        exact ih x hl
      · rw [if_neg hpa]
        exact ih x hl
    | true =>
      simp only [List.lookup, hbeq] at hl
      exact Option.noConfusion hl

theorem lookup_append_single (k : Key) (t : Nat) :
    ∀ (m : List (Key × Nat)), (∀ p ∈ m, (p.1 == k) = false) →
      (m ++ [(k, t)]).lookup k = some t := by
  intro m
  induction m with
  | nil => intro _; simp [List.lookup]
  | cons a m ih =>
    intro hall
    obtain ⟨k0, t0⟩ := a
    have h0 : (k0 == k) = false := hall (k0, t0) (by simp)
    have hkk0 : (k == k0) = false :=
      beq_eq_false_iff_ne.mpr (Ne.symm (by simpa using h0))
    simp only [List.cons_append, List.lookup, hkk0]
    exact ih (fun p hp => hall p (by simp [hp]))

theorem lookup_set_reset_self :
    ∀ (m : List (Key × Nat)) (k : Key) (t : Nat),
      (set_reset_time m k t).lookup k = some t := by
  intro m k t
  unfold set_reset_time
  by_cases hany : m.any (fun p => p.1 == k) = true
  · rw [if_pos hany]
    induction m with
    | nil => simp at hany
    | cons a m ih =>
      obtain ⟨k0, t0⟩ := a
      cases hbeq : (k0 == k) with
      | true =>
        simp only [List.map, hbeq, if_true]
        simp [List.lookup]
      | false =>
        have hany' : m.any (fun p => p.1 == k) = true := by
          simpa [List.any, hbeq] using hany
        simp only [List.map, hbeq, if_false]
        have hkk0 : (k == k0) = false := by
          have h1 : k0 ≠ k := by simpa using hbeq
          exact beq_eq_false_iff_ne.mpr (Ne.symm h1)
        simp only [List.lookup, hkk0]
        exact ih hany'
  · rw [if_neg hany]
    have hall : ∀ p ∈ m, (p.1 == k) = false := by
      intro p hp
      by_contra hcon
      exact hany (List.any_eq_true.mpr ⟨p, hp, by simpa using hcon⟩)
    exact lookup_append_single k t m hall

theorem lookup_set_reset_other :
    ∀ (m : List (Key × Nat)) (k x : Key) (t : Nat), x ≠ k →
      (set_reset_time m k t).lookup x = m.lookup x := by
  intro m k x t hxk
  have hxkb : (x == k) = false := beq_eq_false_iff_ne.mpr hxk
  unfold set_reset_time
  by_cases hany : m.any (fun p => p.1 == k) = true
  · rw [if_pos hany]
    clear hany
    induction m with
    | nil => simp
    | cons a m ih =>
      obtain ⟨k0, t0⟩ := a
      cases hbeq : (k0 == k) with
      | true =>
        have hk0 : k0 = k := by simpa using hbeq
        subst hk0
        simp only [List.map, hbeq, if_true]
        simp only [List.lookup, hxkb]
        exact ih
      | false =>
        simp only [List.map, hbeq, if_false]
        cases hx0 : (x == k0) with
        | true => simp [List.lookup, hx0]
        | false =>
          simp only [List.lookup, hx0]
          exact ih
  · rw [if_neg hany]
    induction m with
    | nil => simp [List.lookup, hxkb]
    | cons a m ih =>
      obtain ⟨k0, t0⟩ := a
      cases hx0 : (x == k0) with
      | true => simp [List.lookup, hx0]
      | false =>
        simp only [List.cons_append, List.lookup, hx0]
        exact ih (by
          intro hany'
          exact hany (by simp [List.any] at hany' ⊢; exact Or.inr hany'))

theorem mem_insert_key (l : List Key) (k x : Key) :
    x ∈ insert_key l k ↔ x ∈ l ∨ x = k := by
  unfold insert_key
  by_cases hc : l.contains k = true
  · rw [if_pos hc]
    have hk : k ∈ l := by simpa using hc
    constructor
    · exact fun h => Or.inl h
    · rintro (h | rfl)
      · exact h
      · exact hk
  · rw [if_neg hc]
    simp

theorem contains_insert_key_self (l : List Key) (k : Key) :
    (insert_key l k).contains k = true := by
  have : k ∈ insert_key l k := (mem_insert_key l k k).mpr (Or.inr rfl)
  simpa using this

theorem insert_key_of_contains (l : List Key) (k : Key)
    (h : l.contains k = true) : insert_key l k = l := by
  unfold insert_key
  rw [if_pos h]

theorem length_filter_mono (p q : Key → Bool) (l : List Key)
    (h : ∀ x, p x = true → q x = true) :
    (l.filter p).length ≤ (l.filter q).length := by
  induction l with
  | nil => simp
  | cons a l ih =>
    rw [List.filter_cons, List.filter_cons]
    cases hp : p a with
    | true =>
      rw [if_pos rfl, h a hp]
      simpa using ih
    | false =>
      rw [if_neg (by simp [hp])]
      cases hq : q a with
      | true =>
        rw [if_pos rfl]
        exact Nat.le_succ_of_le ih
      | false =>
        rw [if_neg (by simp [hq])]
        exact ih

theorem length_filter_not_contains_lt (l E : List Key) (k : Key)
    (hk : k ∈ l) (hE : E.contains k = false) :
    (l.filter (fun x => !((E ++ [k]).contains x))).length <
      (l.filter (fun x => !(E.contains x))).length := by
  induction l with
  | nil => simp at hk
  | cons a l ih =>
    rw [List.filter_cons, List.filter_cons]
    by_cases ha : a = k
    · subst ha
      have h1 : ((E ++ [a]).contains a) = true := by simp
      have h2 : (E.contains a) = false := hE
      rw [if_neg (by rw [h1]; simp), if_pos (by rw [h2]; rfl)]
      have hmono :
          (l.filter (fun x => !((E ++ [a]).contains x))).length ≤
            (l.filter (fun x => !(E.contains x))).length := by
        refine length_filter_mono _ _ l ?_
        intro x hx
        simp only [Bool.not_eq_true'] at hx ⊢
        have hx' : x ∉ E ++ [a] := by simpa using hx
        have : x ∉ E := fun hmem => hx' (by simp [hmem])
        simpa using this
      exact Nat.lt_succ_of_le hmono
    · have hk' : k ∈ l := by
        rcases List.mem_cons.mp hk with h | h
        · exact absurd h.symm ha
        · exact h
      have hsame : ((E ++ [k]).contains a) = (E.contains a) := by
        by_cases hmem : a ∈ E
        · have h1 : a ∈ E ++ [k] := by simp [hmem]
          have e1 : ((E ++ [k]).contains a) = true := by simpa using h1
          have e2 : (E.contains a) = true := by simpa using hmem
          rw [e1, e2]
        · have h1 : a ∉ E ++ [k] := by
            simp only [List.mem_append, List.mem_singleton]
            rintro (h | h)
            · exact hmem h
            · exact ha h
          have e1 : ((E ++ [k]).contains a) = false := by simpa using h1
          have e2 : (E.contains a) = false := by simpa using hmem
          rw [e1, e2]
    -- both filters treat `a` the same way
      rw [hsame]
      cases hEa : (E.contains a) with
      | true =>
        rw [if_neg (by simp), if_neg (by simp)]
        exact ih hk'
      | false =>
        rw [if_pos (by simp : ((!false) = true)), if_pos (by simp : ((!false) = true))]
        exact Nat.succ_lt_succ (ih hk')

/-! ## Lemmas about the sweep and the rotation scan -/

theorem sweep_exh_eq (now : Nat) (c : YouTubeAPIClient) :
    (sweep_exhausted now c).quota_exhausted =
      c.quota_exhausted.filter (quota_active c.quota_reset_time now) := rfl

theorem sweep_reset_eq (now : Nat) (c : YouTubeAPIClient) :
    (sweep_exhausted now c).quota_reset_time =
      c.quota_reset_time.filter (fun p =>
        !(c.quota_exhausted.contains p.1 && decide (p.2 ≤ now))) := rfl

theorem mem_sweep_exhausted (now : Nat) (c : YouTubeAPIClient) (x : Key) :
    x ∈ (sweep_exhausted now c).quota_exhausted ↔
      x ∈ c.quota_exhausted ∧
        quota_active c.quota_reset_time now x = true :=
  List.mem_filter

theorem sweep_preserves_active (now : Nat) (c : YouTubeAPIClient) (x : Key)
    (hx : x ∈ (sweep_exhausted now c).quota_exhausted) :
    quota_active (sweep_exhausted now c).quota_reset_time now x = true := by
  obtain ⟨hmem, hact⟩ := (mem_sweep_exhausted now c x).mp hx
  unfold quota_active at hact ⊢
  rw [sweep_reset_eq]
  cases hl : c.quota_reset_time.lookup x with
  | none => rw [lookup_filter_none _ _ _ hl]
  | some t =>
    rw [hl] at hact
    have ht : now < t := of_decide_eq_true hact
    have hp : (!(c.quota_exhausted.contains x && decide (t ≤ now))) = true := by
      rw [decide_eq_false (Nat.not_le.mpr ht), Bool.and_false]
      rfl
    rw [lookup_filter_keep _ c.quota_reset_time x t hl hp]
    exact hact

theorem first_available_eq_some (keys exh : List Key) (cursor idx : Nat)
    (k : Key) (h : first_available keys exh cursor = some (idx, k)) :
    idx < keys.length ∧ keys.get? idx = some k ∧ exh.contains k = false ∧
      k ∈ keys := by
  unfold first_available at h
  rw [List.findSome?_eq_some_iff] at h
  obtain ⟨l₁, i, l₂, -, hfi, -⟩ := h
  dsimp only at hfi
  cases hg : keys.get? ((cursor + i) % keys.length) with
  | none =>
    rw [hg] at hfi
    exact absurd hfi (by simp)
  | some k0 =>
    rw [hg] at hfi
    dsimp only at hfi
    cases hc : exh.contains k0 with
    | true =>
      rw [hc] at hfi
      simp at hfi
    | false =>
      rw [hc] at hfi
      simp only [Bool.false_eq_true, if_false, Option.some.injEq,
        Prod.mk.injEq] at hfi
      obtain ⟨rfl, rfl⟩ := hfi
      obtain ⟨hlt, hget⟩ := List.get?_eq_some.mp hg
      exact ⟨hlt, hg, hc, hget ▸ List.get_mem keys _ hlt⟩

theorem first_available_at_cursor (keys exh : List Key) (idx : Nat) (k : Key)
    (hidx : idx < keys.length) (hget : keys.get? idx = some k)
    (hcon : exh.contains k = false) :
    first_available keys exh idx = some (idx, k) := by
  unfold first_available
  obtain ⟨n, hn⟩ : ∃ n, keys.length = n + 1 := ⟨keys.length - 1, by omega⟩
  rw [hn, List.range_succ_eq_map, List.findSome?_cons]
  have hmod : (idx + 0) % (n + 1) = idx := by
    rw [Nat.add_zero]
    exact Nat.mod_eq_of_lt (by omega)
  have hf0 :
      (let i0 := (idx + 0) % (n + 1)
       match keys.get? i0 with
       | some k' => if exh.contains k' then none else some (i0, k')
       | none => none) = some (idx, k) := by
    dsimp only
    rw [hmod, hget]
    dsimp only
    rw [hcon]
    simp
  rw [hf0]

theorem contains_eq_false_of_not_mem (l : List Key) (k : Key) (h : k ∉ l) :
    l.contains k = false := by
  simpa using h

theorem not_mem_of_contains_eq_false (l : List Key) (k : Key)
    (h : l.contains k = false) : k ∉ l := by
  simpa using h

theorem get_next_eq_none (now : Nat) (c : YouTubeAPIClient)
    (h : first_available (sweep_exhausted now c).api_keys
      (sweep_exhausted now c).quota_exhausted
      (sweep_exhausted now c).current_key_index = none) :
    get_next_available_key now c = (sweep_exhausted now c, none) := by
  simp only [get_next_available_key]
  rw [h]

theorem get_next_eq_some (now : Nat) (c : YouTubeAPIClient) (idx : Nat)
    (k : Key)
    (h : first_available (sweep_exhausted now c).api_keys
      (sweep_exhausted now c).quota_exhausted
      (sweep_exhausted now c).current_key_index = some (idx, k)) :
    get_next_available_key now c =
      ({ sweep_exhausted now c with current_key_index := idx }, some k) := by
  simp only [get_next_available_key]
  rw [h]

theorem search_videos_succ (fetch : Key → FetchOutcome) (now fuel : Nat)
    (c : YouTubeAPIClient) :
    search_videos fetch now (fuel + 1) c =
      match get_next_available_key now c with
      | (c1, none) => (c1, SearchResult.allExhausted)
      | (c1, some k) =>
        match fetch k with
        | FetchOutcome.ok vs => (c1, SearchResult.ok vs)
        | FetchOutcome.err => (c1, SearchResult.providerError)
        | FetchOutcome.quota =>
          search_videos fetch now fuel (mark_key_exhausted now k c1) := by
  rw [search_videos]

theorem sweep_mark_key (now : Nat) (c : YouTubeAPIClient) (k : Key)
    (hact : ∀ x ∈ c.quota_exhausted,
      quota_active c.quota_reset_time now x = true)
    (hk : c.quota_exhausted.contains k = false) :
    (sweep_exhausted now (mark_key_exhausted now k c)).quota_exhausted =
      c.quota_exhausted ++ [k] := by
  have hins : (mark_key_exhausted now k c).quota_exhausted =
      c.quota_exhausted ++ [k] := by
    show insert_key c.quota_exhausted k = _
    unfold insert_key
    rw [hk]
    simp
  rw [sweep_exh_eq, hins]
  refine List.filter_eq_self.mpr ?_
  intro x hx
  have hreset : (mark_key_exhausted now k c).quota_reset_time =
      set_reset_time c.quota_reset_time k (now + cooldown_seconds) := rfl
  rcases List.mem_append.mp hx with hmem | hmem
  · have hxk : x ≠ k := by
      intro h
      subst h
      exact (not_mem_of_contains_eq_false _ _ hk) hmem
    rw [hreset]
    unfold quota_active
    rw [lookup_set_reset_other _ _ _ _ hxk]
    have := hact x hmem
    unfold quota_active at this
    exact this
  · have hxk : x = k := by simpa using hmem
    subst hxk
    rw [hreset]
    unfold quota_active
    rw [lookup_set_reset_self]
    have hlt : now < now + cooldown_seconds := by
      unfold cooldown_seconds
      omega
    simpa using hlt

theorem avail_count_decrease (now : Nat) (c c1 : YouTubeAPIClient) (k : Key)
    (h : get_next_available_key now c = (c1, some k)) :
    avail_count now (mark_key_exhausted now k c1) < avail_count now c := by
  cases hfa : first_available (sweep_exhausted now c).api_keys
      (sweep_exhausted now c).quota_exhausted
      (sweep_exhausted now c).current_key_index with
  | none =>
    rw [get_next_eq_none now c hfa] at h
    exact absurd (congrArg Prod.snd h) (by simp)
  | some p =>
    obtain ⟨idx, k0⟩ := p
    rw [get_next_eq_some now c idx k0 hfa] at h
    have h2 : k0 = k := by simpa using congrArg Prod.snd h
    subst h2
    have h1 : ({ sweep_exhausted now c with current_key_index := idx } :
        YouTubeAPIClient) = c1 := congrArg Prod.fst h
    subst h1
    obtain ⟨hlt, hget, hcon, hmem⟩ := first_available_eq_some _ _ _ _ _ hfa
    have hact : ∀ x ∈ ({ sweep_exhausted now c with current_key_index := idx } :
        YouTubeAPIClient).quota_exhausted,
        quota_active ({ sweep_exhausted now c with current_key_index := idx } :
          YouTubeAPIClient).quota_reset_time now x = true := by
      intro x hx
      exact sweep_preserves_active now c x hx
    have hswept := sweep_mark_key now
      ({ sweep_exhausted now c with current_key_index := idx } :
        YouTubeAPIClient) k0 hact hcon
    unfold avail_count
    simp only [hswept]
    exact length_filter_not_contains_lt _ _ _ hmem hcon

theorem search_videos_no_noFuel (fetch : Key → FetchOutcome) (now : Nat)
    (hf : ∀ k, fetch k ≠ FetchOutcome.err) :
    ∀ (fuel : Nat) (c : YouTubeAPIClient), avail_count now c < fuel →
      (search_videos fetch now fuel c).2 ≠ SearchResult.noFuel ∧
      (search_videos fetch now fuel c).2 ≠ SearchResult.providerError := by
  intro fuel
  induction fuel with
  | zero => intro c h; exact absurd h (Nat.not_lt_zero _)
  | succ fuel ih =>
    intro c hlt
    cases hg : get_next_available_key now c with
    | mk c1 r =>
      cases r with
      | none =>
        have hstep : search_videos fetch now (fuel + 1) c =
            (c1, SearchResult.allExhausted) := by
          rw [search_videos_succ, hg]
        rw [hstep]
        exact ⟨by simp, by simp⟩
      | some k =>
        cases hfk : fetch k with
        | ok vs =>
          have hstep : search_videos fetch now (fuel + 1) c =
              (c1, SearchResult.ok vs) := by
            rw [search_videos_succ, hg]
            dsimp only
            rw [hfk]
          rw [hstep]
          exact ⟨by simp, by simp⟩
        | err => exact absurd hfk (hf k)
        | quota =>
          have hstep : search_videos fetch now (fuel + 1) c =
              search_videos fetch now fuel (mark_key_exhausted now k c1) := by
            rw [search_videos_succ, hg]
            dsimp only
            rw [hfk]
          rw [hstep]
          refine ih _ ?_
          have hdec := avail_count_decrease now c c1 k hg
          omega

/-! ## Claim theorems -/

/-- C1 counterexample: with two unexhausted credentials, two successive
`_get_next_available_key` calls both return the first credential — the
second call does not return the second distinct credential, so N calls do
not visit all N credentials round-robin. -/
theorem get_next_available_key_repeats_counterexample :
    (get_next_available_key 0
        { api_keys := ["keyA", "keyB"], current_key_index := 0,
          quota_reset_time := [], quota_exhausted := [] }).2 = some "keyA" ∧
    (get_next_available_key 0
        (get_next_available_key 0
          { api_keys := ["keyA", "keyB"], current_key_index := 0,
            quota_reset_time := [], quota_exhausted := [] }).1).2 =
      some "keyA" ∧
    "keyA" ≠ "keyB" := by
  exact ⟨rfl, rfl, by decide⟩

/-- C1 amended: `_get_next_available_key` returns the first unexhausted
credential scanning forward from the cursor in rotation order and sets the
cursor to the index of the returned credential — not past it — so an
immediately following call returns the same credential again with the same
cursor; distinct credentials are visited only as earlier ones become
exhausted, not round-robin across successive calls. -/
theorem get_next_available_key_stable :
    ∀ (now : Nat) (c c' : YouTubeAPIClient) (k : Key),
      get_next_available_key now c = (c', some k) →
      c'.api_keys.get? c'.current_key_index = some k ∧
      k ∉ c'.quota_exhausted ∧
      (get_next_available_key now c').2 = some k ∧
      (get_next_available_key now c').1.current_key_index =
        c'.current_key_index := by
  intro now c c' k h
  cases hfa : first_available (sweep_exhausted now c).api_keys
      (sweep_exhausted now c).quota_exhausted
      (sweep_exhausted now c).current_key_index with
  | none =>
    rw [get_next_eq_none now c hfa] at h
    exact absurd (congrArg Prod.snd h) (by simp)
  | some p =>
    obtain ⟨idx, k0⟩ := p
    rw [get_next_eq_some now c idx k0 hfa] at h
    have h2 : k0 = k := by simpa using congrArg Prod.snd h
    subst h2
    have h1 : ({ sweep_exhausted now c with current_key_index := idx } :
        YouTubeAPIClient) = c' := congrArg Prod.fst h
    subst h1
    obtain ⟨hlt, hget, hcon, -⟩ := first_available_eq_some _ _ _ _ _ hfa
    have hnotmem : k0 ∉ (sweep_exhausted now c).quota_exhausted :=
      not_mem_of_contains_eq_false _ _ hcon
    have hcon2 :
        ((sweep_exhausted now
          ({ sweep_exhausted now c with current_key_index := idx } :
            YouTubeAPIClient)).quota_exhausted.contains k0) = false := by
      refine contains_eq_false_of_not_mem _ _ ?_
      intro hm
      exact hnotmem ((mem_sweep_exhausted _ _ _).mp hm).1
    have hfa2 : first_available
        (sweep_exhausted now
          ({ sweep_exhausted now c with current_key_index := idx } :
            YouTubeAPIClient)).api_keys
        (sweep_exhausted now
          ({ sweep_exhausted now c with current_key_index := idx } :
            YouTubeAPIClient)).quota_exhausted
        (sweep_exhausted now
          ({ sweep_exhausted now c with current_key_index := idx } :
            YouTubeAPIClient)).current_key_index = some (idx, k0) :=
      first_available_at_cursor _ _ idx k0 hlt hget hcon2
    have hsnd := get_next_eq_some now
      ({ sweep_exhausted now c with current_key_index := idx } :
        YouTubeAPIClient) idx k0 hfa2
    refine ⟨hget, hnotmem, ?_, ?_⟩
    · rw [hsnd]
    · rw [hsnd]

/-- C1 amended witness: stability of the returned credential at a concrete
two-credential pool. -/
theorem get_next_available_key_stable_witness :
    get_next_available_key 0 clientAB = (clientAB, some "keyA") ∧
    (clientAB.api_keys.get? clientAB.current_key_index = some "keyA" ∧
     "keyA" ∉ clientAB.quota_exhausted ∧
     (get_next_available_key 0 clientAB).2 = some "keyA" ∧
     (get_next_available_key 0 clientAB).1.current_key_index =
       clientAB.current_key_index) :=
  ⟨by decide, get_next_available_key_stable 0 clientAB clientAB "keyA"
    (by decide)⟩

/-- C5: every pool operation preserves the invariant that each exhausted
identifier has a `quota_reset_time` entry: marking adds to both together,
the sweep inside `_get_next_available_key` removes from both together,
`get_quota_status` mutates nothing, and the initial pool satisfies it. -/
theorem pool_reset_invariant :
    ∀ (c : YouTubeAPIClient) (now : Nat) (k : Key),
      pool_inv c →
      pool_inv (mark_key_exhausted now k c) ∧
      pool_inv ((get_next_available_key now c).1) ∧
      pool_inv ((get_quota_status c).1) ∧
      pool_inv { api_keys := c.api_keys, current_key_index := 0,
                 quota_reset_time := [], quota_exhausted := [] } := by
  intro c now k hinv
  have hsweep : pool_inv (sweep_exhausted now c) := by
    intro x hx
    obtain ⟨hmem, hact⟩ := (mem_sweep_exhausted now c x).mp hx
    have hs := hinv x hmem
    cases hl : c.quota_reset_time.lookup x with
    | none => rw [hl] at hs; simp at hs
    | some t =>
      unfold quota_active at hact
      rw [hl] at hact
      have ht : now < t := of_decide_eq_true hact
      have hp : (!(c.quota_exhausted.contains x && decide (t ≤ now))) = true := by
        rw [decide_eq_false (Nat.not_le.mpr ht), Bool.and_false]
        rfl
      rw [sweep_reset_eq, lookup_filter_keep _ _ _ _ hl hp]
      rfl
  refine ⟨?_, ?_, hinv, by intro x hx; simp at hx⟩
  · intro x hx
    have hreset : (mark_key_exhausted now k c).quota_reset_time =
        set_reset_time c.quota_reset_time k (now + cooldown_seconds) := rfl
    rcases (mem_insert_key _ _ _).mp hx with hx' | rfl
    · by_cases hxk : x = k
      · subst hxk
        rw [hreset, lookup_set_reset_self]
        rfl
      · rw [hreset, lookup_set_reset_other _ _ _ _ hxk]
        exact hinv x hx'
    · rw [hreset, lookup_set_reset_self]
      rfl
  · cases hfa : first_available (sweep_exhausted now c).api_keys
        (sweep_exhausted now c).quota_exhausted
        (sweep_exhausted now c).current_key_index with
    | none =>
      rw [get_next_eq_none now c hfa]
      exact hsweep
    | some p =>
      obtain ⟨idx, k0⟩ := p
      rw [get_next_eq_some now c idx k0 hfa]
      intro x hx
      exact hsweep x hx

/-- C5 witness: invariant preservation at a concrete pool. -/
theorem pool_reset_invariant_witness :
    pool_inv clientExpired ∧
    (pool_inv (mark_key_exhausted 10 "keyB" clientExpired) ∧
     pool_inv ((get_next_available_key 10 clientExpired).1) ∧
     pool_inv ((get_quota_status clientExpired).1) ∧
     pool_inv { api_keys := clientExpired.api_keys, current_key_index := 0,
                quota_reset_time := [], quota_exhausted := [] }) :=
  ⟨by unfold pool_inv; decide,
   pool_reset_invariant clientExpired 10 "keyB" (by unfold pool_inv; decide)⟩

/-- C8: the quota-exhaustion retry of `search_videos` terminates — with a
fixed clock (no cooldown elapses during the call) each retry strictly
shrinks the number of available credentials, so fuel equal to the pool
size plus one is never exhausted and, when the external call only ever
succeeds or reports quota exhaustion, the call ends with a result list or
with the all-credentials-exhausted error. -/
theorem search_videos_terminates :
    ∀ (fetch : Key → FetchOutcome) (now : Nat) (c : YouTubeAPIClient),
      (∀ k, fetch k ≠ FetchOutcome.err) →
      ((search_videos fetch now (c.api_keys.length + 1) c).2 ≠
          SearchResult.noFuel ∧
       ((search_videos fetch now (c.api_keys.length + 1) c).2 =
          SearchResult.allExhausted ∨
        ∃ vs, (search_videos fetch now (c.api_keys.length + 1) c).2 =
          SearchResult.ok vs) ∧
       (∀ (c1 : YouTubeAPIClient) (k : Key),
          get_next_available_key now c = (c1, some k) →
          avail_count now (mark_key_exhausted now k c1) < avail_count now c)) := by
  intro fetch now c hf
  have hbound : avail_count now c < c.api_keys.length + 1 := by
    have hle : avail_count now c ≤ c.api_keys.length :=
      List.length_filter_le _ _
    omega
  obtain ⟨h1, h2⟩ :=
    search_videos_no_noFuel fetch now hf (c.api_keys.length + 1) c hbound
  refine ⟨h1, ?_, fun c1 k hg => avail_count_decrease now c c1 k hg⟩
  cases hres : (search_videos fetch now (c.api_keys.length + 1) c).2 with
  | ok vs => exact Or.inr ⟨vs, rfl⟩
  | allExhausted => exact Or.inl rfl
  | providerError => exact absurd hres h2
  | noFuel => exact absurd hres h1

/-- C8 witness: termination at a concrete two-credential pool with an
always-quota provider. -/
theorem search_videos_terminates_witness :
    (∀ k : Key, (fun _ : Key => FetchOutcome.quota) k ≠ FetchOutcome.err) ∧
    ((search_videos (fun _ : Key => FetchOutcome.quota) 100
        (clientAB.api_keys.length + 1) clientAB).2 ≠ SearchResult.noFuel ∧
     ((search_videos (fun _ : Key => FetchOutcome.quota) 100
        (clientAB.api_keys.length + 1) clientAB).2 =
          SearchResult.allExhausted ∨
      ∃ vs, (search_videos (fun _ : Key => FetchOutcome.quota) 100
        (clientAB.api_keys.length + 1) clientAB).2 = SearchResult.ok vs) ∧
     (∀ (c1 : YouTubeAPIClient) (k : Key),
        get_next_available_key 100 clientAB = (c1, some k) →
        avail_count 100 (mark_key_exhausted 100 k c1) <
          avail_count 100 clientAB)) :=
  ⟨fun _ h => FetchOutcome.noConfusion h,
   search_videos_terminates (fun _ : Key => FetchOutcome.quota) 100 clientAB
     (fun _ h => FetchOutcome.noConfusion h)⟩

/-- C10: `get_quota_status` performs no sweep and no mutation: the client
state comes back unchanged, a credential whose reset time has already
passed is still reported with `is_exhausted = true` and counted in
`exhausted_keys`, `available_keys` is always `total_keys - exhausted_keys`,
while a later `_get_next_available_key` at the same clock does sweep the
credential out of the exhausted set. -/
theorem get_quota_status_no_sweep :
    ∀ (c : YouTubeAPIClient) (now i t : Nat) (k : Key),
      c.api_keys.get? i = some k →
      k ∈ c.quota_exhausted →
      c.quota_reset_time.lookup k = some t →
      t ≤ now →
      (get_quota_status c).1 = c ∧
      (get_quota_status c).2.total_keys = c.api_keys.length ∧
      (get_quota_status c).2.exhausted_keys = c.quota_exhausted.length ∧
      (get_quota_status c).2.available_keys =
        (get_quota_status c).2.total_keys -
          (get_quota_status c).2.exhausted_keys ∧
      ((get_quota_status c).2.keys_status.get? i).map KeyStatus.is_exhausted =
        some true ∧
      k ∉ ((get_next_available_key now c).1).quota_exhausted := by
  intro c now i t k hget hmem hlook htle
  refine ⟨rfl, rfl, rfl, rfl, ?_, ?_⟩
  · show (((c.api_keys.enum.map _).get? i).map KeyStatus.is_exhausted) =
      some true
    rw [List.get?_map, List.enum_get?, hget]
    simpa using hmem
  · have hexh : ((get_next_available_key now c).1).quota_exhausted =
        (sweep_exhausted now c).quota_exhausted := by
      cases hfa : first_available (sweep_exhausted now c).api_keys
          (sweep_exhausted now c).quota_exhausted
          (sweep_exhausted now c).current_key_index with
      | none => rw [get_next_eq_none now c hfa]
      | some p =>
        obtain ⟨idx, k0⟩ := p
        rw [get_next_eq_some now c idx k0 hfa]
    rw [hexh]
    intro hm
    have hact := ((mem_sweep_exhausted now c k).mp hm).2
    unfold quota_active at hact
    rw [hlook] at hact
    have hnt : now < t := of_decide_eq_true hact
    omega

/-- C10 witness: the status report and the later sweep at a concrete pool
with a stale exhausted credential. -/
theorem get_quota_status_no_sweep_witness :
    (clientStale.api_keys.get? 1 = some "bbbb" ∧
     "bbbb" ∈ clientStale.quota_exhausted ∧
     clientStale.quota_reset_time.lookup "bbbb" = some 5 ∧
     5 ≤ 10) ∧
    ((get_quota_status clientStale).1 = clientStale ∧
     (get_quota_status clientStale).2.total_keys =
       clientStale.api_keys.length ∧
     (get_quota_status clientStale).2.exhausted_keys =
       clientStale.quota_exhausted.length ∧
     (get_quota_status clientStale).2.available_keys =
       (get_quota_status clientStale).2.total_keys -
         (get_quota_status clientStale).2.exhausted_keys ∧
     ((get_quota_status clientStale).2.keys_status.get? 1).map
         KeyStatus.is_exhausted = some true ∧
     "bbbb" ∉ ((get_next_available_key 10 clientStale).1).quota_exhausted) :=
  ⟨by refine ⟨rfl, ?_, rfl, by decide⟩; decide,
   get_quota_status_no_sweep clientStale 10 1 5 "bbbb" rfl (by decide) rfl
     (by decide)⟩

/-- C2: when the fetch with the current credential signals quota
exhaustion, `search_videos` marks that credential exhausted and retries the
same request once with the next available credential: with two credentials
where only the first reports quota exhaustion the call succeeds with the
second credential's result, the first ends up exhausted and the cursor on
the second; with a single quota-exhausted credential the failure is
surfaced as the all-exhausted error, and a failed cycle increments the
loop's `error_count` by exactly one. -/
theorem search_videos_quota_rotation :
    ∀ (k1 k2 : Key) (vs : List Nat) (fetch : Key → FetchOutcome) (now : Nat)
      (interval : Nat) (st : LoopCounters),
      k1 ≠ k2 →
      fetch k1 = FetchOutcome.quota →
      fetch k2 = FetchOutcome.ok vs →
      (search_videos fetch now 3
          { api_keys := [k1, k2], current_key_index := 0,
            quota_reset_time := [], quota_exhausted := [] } =
        ({ api_keys := [k1, k2], current_key_index := 1,
           quota_reset_time := [(k1, now + cooldown_seconds)],
           quota_exhausted := [k1] }, SearchResult.ok vs)) ∧
      (∀ fetch1 : Key → FetchOutcome, fetch1 k1 = FetchOutcome.quota →
        (search_videos fetch1 now 2
            { api_keys := [k1], current_key_index := 0,
              quota_reset_time := [], quota_exhausted := [] }).2 =
          SearchResult.allExhausted) ∧
      (fetch_videos_loop_iter interval st
          TickOutcome.failure).state.error_count = st.error_count + 1 := by
  intro k1 k2 vs fetch now interval st h12 hq1 hq2
  have hc1 : ([k1] : List Key).contains k1 = true := by simp
  have hact1 : quota_active [(k1, now + cooldown_seconds)] now k1 = true := by
    unfold quota_active
    have hl : List.lookup k1 [(k1, now + cooldown_seconds)] =
        some (now + cooldown_seconds) := by simp [List.lookup]
    rw [hl]
    exact decide_eq_true (by unfold cooldown_seconds; omega)
  have he : List.filter (quota_active [(k1, now + cooldown_seconds)] now) [k1] =
      [k1] := by
    rw [List.filter_cons, if_pos hact1]
    rfl
  have hcond : (!(([k1] : List Key).contains k1 &&
      decide (now + cooldown_seconds ≤ now))) = true := by
    rw [hc1, decide_eq_false (by unfold cooldown_seconds; omega : ¬ (now + cooldown_seconds ≤ now))]
    rfl
  have hrs : List.filter (fun p =>
      !(([k1] : List Key).contains p.1 && decide (p.2 ≤ now)))
      [(k1, now + cooldown_seconds)] = [(k1, now + cooldown_seconds)] := by
    rw [List.filter_cons, if_pos hcond]
    rfl
  refine ⟨?_, ?_, rfl⟩
  · -- two credentials: quota on k1, success on k2
    have hfa0 : first_available
        (sweep_exhausted now
          { api_keys := [k1, k2], current_key_index := 0,
            quota_reset_time := [], quota_exhausted := [] }).api_keys
        (sweep_exhausted now
          { api_keys := [k1, k2], current_key_index := 0,
            quota_reset_time := [], quota_exhausted := [] }).quota_exhausted
        (sweep_exhausted now
          { api_keys := [k1, k2], current_key_index := 0,
            quota_reset_time := [], quota_exhausted := [] }).current_key_index =
        some (0, k1) :=
      first_available_at_cursor _ _ 0 k1 (by omega : (0:Nat) < 2) rfl rfl
    have hg0 := get_next_eq_some now
      { api_keys := [k1, k2], current_key_index := 0,
        quota_reset_time := [], quota_exhausted := [] } 0 k1 hfa0
    have hsw1 : sweep_exhausted now
        { api_keys := [k1, k2], current_key_index := 0,
          quota_reset_time := [(k1, now + cooldown_seconds)],
          quota_exhausted := [k1] } =
        { api_keys := [k1, k2], current_key_index := 0,
          quota_reset_time := [(k1, now + cooldown_seconds)],
          quota_exhausted := [k1] } := by
      unfold sweep_exhausted
      rw [he, hrs]
    have hfa1 : first_available ([k1, k2] : List Key) [k1] 0 = some (1, k2) := by
      have hr2 : List.range 2 = [0, 1] := rfl
      have hc2 : ([k1] : List Key).contains k2 = false :=
        contains_eq_false_of_not_mem _ _ (by simpa using (Ne.symm h12))
      simp [first_available, hr2, List.findSome?_cons, hc1, hc2, Ne.symm h12]
    have hfa1' : first_available
        (sweep_exhausted now
          { api_keys := [k1, k2], current_key_index := 0,
            quota_reset_time := [(k1, now + cooldown_seconds)],
            quota_exhausted := [k1] }).api_keys
        (sweep_exhausted now
          { api_keys := [k1, k2], current_key_index := 0,
            quota_reset_time := [(k1, now + cooldown_seconds)],
            quota_exhausted := [k1] }).quota_exhausted
        (sweep_exhausted now
          { api_keys := [k1, k2], current_key_index := 0,
            quota_reset_time := [(k1, now + cooldown_seconds)],
            quota_exhausted := [k1] }).current_key_index = some (1, k2) := by
      rw [hsw1]
      exact hfa1
    have hg1 := get_next_eq_some now
      { api_keys := [k1, k2], current_key_index := 0,
        quota_reset_time := [(k1, now + cooldown_seconds)],
        quota_exhausted := [k1] } 1 k2 hfa1'
    rw [show (3 : Nat) = 2 + 1 from rfl, search_videos_succ, hg0]
    dsimp only
    rw [hq1]
    rw [show (2 : Nat) = 1 + 1 from rfl, search_videos_succ]
    rw [show mark_key_exhausted now k1
        ({ sweep_exhausted now
            { api_keys := [k1, k2], current_key_index := 0,
              quota_reset_time := [], quota_exhausted := [] } with
           current_key_index := 0 }) =
        { api_keys := [k1, k2], current_key_index := 0,
          quota_reset_time := [(k1, now + cooldown_seconds)],
          quota_exhausted := [k1] } from rfl]
    rw [hg1]
    dsimp only
    rw [hq2, hsw1]
  · -- one credential: quota on k1, then all exhausted
    intro fetch1 hq1'
    have hfb0 : first_available
        (sweep_exhausted now
          { api_keys := [k1], current_key_index := 0,
            quota_reset_time := [], quota_exhausted := [] }).api_keys
        (sweep_exhausted now
          { api_keys := [k1], current_key_index := 0,
            quota_reset_time := [], quota_exhausted := [] }).quota_exhausted
        (sweep_exhausted now
          { api_keys := [k1], current_key_index := 0,
            quota_reset_time := [], quota_exhausted := [] }).current_key_index =
        some (0, k1) :=
      first_available_at_cursor _ _ 0 k1 (by omega : (0:Nat) < 1) rfl rfl
    have hgb0 := get_next_eq_some now
      { api_keys := [k1], current_key_index := 0,
        quota_reset_time := [], quota_exhausted := [] } 0 k1 hfb0
    have hswb1 : sweep_exhausted now
        { api_keys := [k1], current_key_index := 0,
          quota_reset_time := [(k1, now + cooldown_seconds)],
          quota_exhausted := [k1] } =
        { api_keys := [k1], current_key_index := 0,
          quota_reset_time := [(k1, now + cooldown_seconds)],
          quota_exhausted := [k1] } := by
      unfold sweep_exhausted
      rw [he, hrs]
    have hfb1 : first_available ([k1] : List Key) [k1] 0 = none := by
      have hr1 : List.range 1 = [0] := rfl
      simp [first_available, hr1, List.findSome?_cons, hc1]
    have hfb1' : first_available
        (sweep_exhausted now
          { api_keys := [k1], current_key_index := 0,
            quota_reset_time := [(k1, now + cooldown_seconds)],
            quota_exhausted := [k1] }).api_keys
        (sweep_exhausted now
          { api_keys := [k1], current_key_index := 0,
            quota_reset_time := [(k1, now + cooldown_seconds)],
            quota_exhausted := [k1] }).quota_exhausted
        (sweep_exhausted now
          { api_keys := [k1], current_key_index := 0,
            quota_reset_time := [(k1, now + cooldown_seconds)],
            quota_exhausted := [k1] }).current_key_index = none := by
      rw [hswb1]
      exact hfb1
    have hgb1 := get_next_eq_none now
      { api_keys := [k1], current_key_index := 0,
        quota_reset_time := [(k1, now + cooldown_seconds)],
        quota_exhausted := [k1] } hfb1'
    rw [show (2 : Nat) = 1 + 1 from rfl, search_videos_succ, hgb0]
    dsimp only
    rw [hq1']
    rw [show (1 : Nat) = 0 + 1 from rfl, search_videos_succ]
    rw [show mark_key_exhausted now k1
        ({ sweep_exhausted now
            { api_keys := [k1], current_key_index := 0,
              quota_reset_time := [], quota_exhausted := [] } with
           current_key_index := 0 }) =
        { api_keys := [k1], current_key_index := 0,
          quota_reset_time := [(k1, now + cooldown_seconds)],
          quota_exhausted := [k1] } from rfl]
    rw [hgb1]


/-- C2 witness: the quota-rotation scenario at concrete credentials. -/
theorem search_videos_quota_rotation_witness :
    (("keyA" : Key) ≠ "keyB" ∧
     fetchWitness "keyA" = FetchOutcome.quota ∧
     fetchWitness "keyB" = FetchOutcome.ok [7]) ∧
    ((search_videos fetchWitness 100 3
        { api_keys := ["keyA", "keyB"], current_key_index := 0,
          quota_reset_time := [], quota_exhausted := [] } =
      ({ api_keys := ["keyA", "keyB"], current_key_index := 1,
         quota_reset_time := [("keyA", 100 + cooldown_seconds)],
         quota_exhausted := ["keyA"] }, SearchResult.ok [7])) ∧
     (∀ fetch1 : Key → FetchOutcome, fetch1 "keyA" = FetchOutcome.quota →
       (search_videos fetch1 100 2
           { api_keys := ["keyA"], current_key_index := 0,
             quota_reset_time := [], quota_exhausted := [] }).2 =
         SearchResult.allExhausted) ∧
     (fetch_videos_loop_iter 10
         { fetch_count := 0, error_count := 0, last_fetch_time := none }
         TickOutcome.failure).state.error_count =
       ({ fetch_count := 0, error_count := 0,
          last_fetch_time := none } : LoopCounters).error_count + 1) :=
  ⟨⟨by decide, by decide, by decide⟩,
   search_videos_quota_rotation "keyA" "keyB" [7] fetchWitness 100 10
     { fetch_count := 0, error_count := 0, last_fetch_time := none }
     (by decide) (by decide) (by decide)⟩


/-- C3 counterexample: in the trace of `stop_background_fetching` on a
running poller with a live task, awaiting the task's termination does NOT
happen before `running` is set false — the flag is cleared first. -/
theorem stop_background_fetching_order_counterexample :
    ¬ ((stop_background_fetching true true).indexOf StopStep.awaitTask <
        (stop_background_fetching true true).indexOf StopStep.setRunningFalse) := by
  decide

/-- C3 amended: `stop()` on a running poller first sets `running` to false,
then cancels the loop task and awaits its full termination (swallowing the
cancellation) before returning, so after `stop()` returns the loop task has
fully terminated and `running` is false. -/
theorem stop_background_fetching_terminates_task :
    stop_background_fetching true true =
      [StopStep.setRunningFalse, StopStep.cancelTask, StopStep.awaitTask,
       StopStep.logStopped] ∧
    (stop_background_fetching true true).indexOf StopStep.setRunningFalse <
      (stop_background_fetching true true).indexOf StopStep.awaitTask ∧
    StopStep.awaitTask ∈ stop_background_fetching true true ∧
    stop_background_fetching false true = [StopStep.warnNotRunning] := by
  refine ⟨rfl, by decide, by simp [stop_background_fetching], rfl⟩

/-- C4 counterexample: on an internal failure `force_fetch` returns a
record with no `duration` entry, so the result does not always contain
`duration_seconds`. -/
theorem force_fetch_missing_duration_counterexample :
    (force_fetch { is_running := false } (Except.error "boom") 0 5).2.duration =
      none := rfl

/-- C4 amended: `force_fetch` never raises; it returns a record with
`success`, `message` and `timestamp` in every outcome and `duration` on
success only; on success `success = true` and the duration `t1 - t0` is
non-negative whenever the end time is not before the start time; on
failure the error text is captured into the message; the `is_running` flag
is left unchanged in both cases. -/
theorem force_fetch_spec :
    ∀ (flags : PollerFlags) (t0 t1 : Nat) (e : String),
      t0 ≤ t1 →
      ((force_fetch flags (Except.ok ()) t0 t1).1 = flags ∧
       (force_fetch flags (Except.ok ()) t0 t1).2.success = true ∧
       (force_fetch flags (Except.ok ()) t0 t1).2.duration =
         some ((t1 : Int) - (t0 : Int)) ∧
       (∀ d, (force_fetch flags (Except.ok ()) t0 t1).2.duration = some d →
          0 ≤ d) ∧
       (force_fetch flags (Except.ok ()) t0 t1).2.timestamp = t1) ∧
      ((force_fetch flags (Except.error e) t0 t1).1 = flags ∧
       (force_fetch flags (Except.error e) t0 t1).2.success = false ∧
       (force_fetch flags (Except.error e) t0 t1).2.message =
         "Manual fetch failed: " ++ e ∧
       (force_fetch flags (Except.error e) t0 t1).2.duration = none ∧
       (force_fetch flags (Except.error e) t0 t1).2.timestamp = t1) := by
  intro flags t0 t1 e h01
  refine ⟨⟨rfl, rfl, rfl, ?_, rfl⟩, rfl, rfl, rfl, rfl, rfl⟩
  intro d hd
  have : d = (t1 : Int) - (t0 : Int) := by
    simpa [force_fetch] using hd.symm
  subst this
  omega

/-- C4 witness: the amended `force_fetch` facts at a concrete input. -/
theorem force_fetch_spec_witness :
    (0 : Nat) ≤ 5 ∧
    (((force_fetch { is_running := false } (Except.ok ()) 0 5).1 =
        { is_running := false } ∧
      (force_fetch { is_running := false } (Except.ok ()) 0 5).2.success = true ∧
      (force_fetch { is_running := false } (Except.ok ()) 0 5).2.duration =
        some ((5 : Int) - (0 : Int)) ∧
      (∀ d, (force_fetch { is_running := false } (Except.ok ()) 0 5).2.duration =
          some d → 0 ≤ d) ∧
      (force_fetch { is_running := false } (Except.ok ()) 0 5).2.timestamp = 5) ∧
     ((force_fetch { is_running := false } (Except.error "boom") 0 5).1 =
        { is_running := false } ∧
      (force_fetch { is_running := false } (Except.error "boom") 0 5).2.success =
        false ∧
      (force_fetch { is_running := false } (Except.error "boom") 0 5).2.message =
        "Manual fetch failed: " ++ "boom" ∧
      (force_fetch { is_running := false } (Except.error "boom") 0 5).2.duration =
        none ∧
      (force_fetch { is_running := false }
          (Except.error "boom") 0 5).2.timestamp = 5)) :=
  ⟨by decide, force_fetch_spec { is_running := false } 0 5 "boom" (by decide)⟩

/-- C6: `_mark_key_exhausted` unconditionally puts the key into the
exhausted set with reset time now plus the fixed 24-hour cooldown, and a
second mark of the same key refreshes the reset time while leaving the
exhausted set (and hence its size) unchanged. -/
theorem mark_key_exhausted_idempotent :
    ∀ (c : YouTubeAPIClient) (k : Key) (now1 now2 : Nat),
      k ∈ (mark_key_exhausted now1 k c).quota_exhausted ∧
      (mark_key_exhausted now1 k c).quota_reset_time.lookup k =
        some (now1 + cooldown_seconds) ∧
      (mark_key_exhausted now2 k (mark_key_exhausted now1 k c)).quota_exhausted =
        (mark_key_exhausted now1 k c).quota_exhausted ∧
      (mark_key_exhausted now2 k
          (mark_key_exhausted now1 k c)).quota_exhausted.length =
        (mark_key_exhausted now1 k c).quota_exhausted.length ∧
      (mark_key_exhausted now2 k
          (mark_key_exhausted now1 k c)).quota_reset_time.lookup k =
        some (now2 + cooldown_seconds) ∧
      cooldown_seconds = 24 * 60 * 60 := by
  intro c k now1 now2
  have hmem : k ∈ (mark_key_exhausted now1 k c).quota_exhausted :=
    (mem_insert_key _ _ _).mpr (Or.inr rfl)
  have hsame :
      (mark_key_exhausted now2 k (mark_key_exhausted now1 k c)).quota_exhausted =
        (mark_key_exhausted now1 k c).quota_exhausted :=
    insert_key_of_contains _ _ (contains_insert_key_self _ _)
  exact ⟨hmem, lookup_set_reset_self _ _ _, hsame, by rw [hsame],
    lookup_set_reset_self _ _ _, rfl⟩

/-- C7: a failing loop iteration increments `error_count` by one, leaves
`fetch_count` and `last_fetch_time` untouched, keeps the loop going, and
sleeps `min(2 * interval, 60)`; a successful iteration increments
`fetch_count`, sets `last_fetch_time` to now, leaves `error_count`
untouched, keeps the loop going, and sleeps the configured interval. -/
theorem fetch_videos_loop_iter_spec :
    ∀ (interval : Nat) (st : LoopCounters) (now : Nat),
      ((fetch_videos_loop_iter interval st TickOutcome.failure).state.error_count =
        st.error_count + 1 ∧
       (fetch_videos_loop_iter interval st TickOutcome.failure).state.fetch_count =
        st.fetch_count ∧
       (fetch_videos_loop_iter interval st
          TickOutcome.failure).state.last_fetch_time = st.last_fetch_time ∧
       (fetch_videos_loop_iter interval st TickOutcome.failure).continue_loop =
        true ∧
       (fetch_videos_loop_iter interval st TickOutcome.failure).sleep =
        some (min (interval * 2) 60)) ∧
      ((fetch_videos_loop_iter interval st
          (TickOutcome.success now)).state.fetch_count = st.fetch_count + 1 ∧
       (fetch_videos_loop_iter interval st
          (TickOutcome.success now)).state.last_fetch_time = some now ∧
       (fetch_videos_loop_iter interval st
          (TickOutcome.success now)).state.error_count = st.error_count ∧
       (fetch_videos_loop_iter interval st
          (TickOutcome.success now)).continue_loop = true ∧
       (fetch_videos_loop_iter interval st (TickOutcome.success now)).sleep =
        some interval) := by
  intro interval st now
  exact ⟨⟨rfl, rfl, rfl, rfl, by simp [fetch_videos_loop_iter, Nat.mul_comm]⟩,
    rfl, rfl, rfl, rfl, rfl⟩

/-- C9: creation stamps both timestamps with now; an update overwrites the
fetched fields and refreshes `updated_at` while leaving `created_at`
untouched; reconciling the same video id twice from an empty store yields
one stored record whose `created_at` is the first time and whose
`updated_at` is the second. -/
theorem reconcile_video_timestamps :
    ∀ (α : Type) (vid : String) (d d2 : α) (now1 now2 : Nat)
      (r : StoredVideo α),
      (update_video now2 d2 r).created_at = r.created_at ∧
      (update_video now2 d2 r).updated_at = now2 ∧
      (create_video now1 d : StoredVideo α).created_at = now1 ∧
      (create_video now1 d : StoredVideo α).updated_at = now1 ∧
      reconcile_video now2 (reconcile_video now1 ([] : VideoDB α) vid d) vid d2 =
        [(vid, { fields := d2, created_at := now1, updated_at := now2 })] := by
  intro α vid d d2 now1 now2 r
  refine ⟨rfl, rfl, rfl, rfl, ?_⟩
  simp [reconcile_video, List.lookup, create_video, update_video]

end YTFetch
